import Mathlib

/-!
Shallow embedding of the desktop-snake program (src/main.rs) and proofs of
its specified properties.

The program keeps a snake body as a vector of (usize, usize) cells, a food
cell, and a shared direction; each tick computes the next head with i32
arithmetic and torus wraparound, grows or shifts the body, and emits render
updates.  Machine arithmetic is modelled over Int/Nat with explicit
two's-complement reinterpretation where the Rust code casts.
-/

/-- Reinterpretation of an integer's low 32 bits as an i32 (two's complement).
This is the semantics of Rust `as i32` casts and of wrapping i32 arithmetic. -/
def toI32 (n : Int) : Int := (n + 2 ^ 31) % 2 ^ 32 - 2 ^ 31

/-- Reinterpretation of an i32 value as a usize (64-bit): sign-extend and read
unsigned.  This is the semantics of the Rust `as usize` cast on line 135. -/
def toU64 (n : Int) : Nat := (n % 2 ^ 64).toNat

/-- The configuration loaded from config.toml (struct Config, lines 10-15).
The Rust fields are u32. -/
structure Config where
  width : Nat
  height : Nat
  offset : Nat
  deriving DecidableEq

/-- enum SnakeDir (lines 57-63). -/
inductive SnakeDir where
  | up
  | down
  | left
  | right
  deriving DecidableEq, Fintype

/-- A grid cell, as stored in snake_bits: a (usize, usize) pair, x first. -/
abbrev Cell := Nat × Nat

/-- A pending render update as pushed onto `updates`: (x, y, occupied). -/
abbrev Update := Nat × Nat × Bool

/-- fn wrap (lines 71-79): clamp a coordinate onto the torus.  `max - 1` is
i32 subtraction, hence the toI32. -/
def wrap (val max : Int) : Int :=
  if val < 0 then toI32 (max - 1)
  else if val ≥ max then 0
  else val

/-- Lines 121-135 of the tick loop: read the head, move one step in the
current direction with i32 arithmetic, wrap both axes, and cast back to
usize.  Returns `snake_new_bit`. -/
def nextHeadFrom (cfg : Config) (dir : SnakeDir) (head : Cell) : Cell :=
  let head_x := toI32 head.1
  let head_y := toI32 head.2
  let moved :=
    match dir with
    | SnakeDir.up => (head_x, toI32 (head_y - 1))
    | SnakeDir.down => (head_x, toI32 (head_y + 1))
    | SnakeDir.left => (toI32 (head_x - 1), head_y)
    | SnakeDir.right => (toI32 (head_x + 1), head_y)
  let new_x := wrap moved.1 (toI32 cfg.width)
  let new_y := wrap moved.2 (toI32 cfg.height)
  (toU64 new_x, toU64 new_y)

/-- The mutable game state owned by the main loop: snake_bits (oldest first,
head last) and food_pos. -/
structure GameState where
  snake_bits : List Cell
  food_pos : Cell
  deriving DecidableEq

/-- One tick of the game loop (lines 120-149), up to but not including the
file flush.  `r1`, `r2` are the two values drawn from rand::random::<usize>()
on a food tick; `updates` is the pending-updates buffer the tick starts with.
`none` models a panic: `snake_bits.last().unwrap()` on an empty body, or the
`%` by zero in the food relocation when width or height is 0. -/
def tick (cfg : Config) (dir : SnakeDir) (r1 r2 : Nat) (g : GameState)
    (updates : List Update) : Option (GameState × List Update) :=
  match g.snake_bits.getLast? with
  | none => none
  | some head =>
    let snake_new_bit := nextHeadFrom cfg dir head
    let snake_bits := g.snake_bits ++ [snake_new_bit]
    let updates := updates ++ [(snake_new_bit.1, snake_new_bit.2, true)]
    if snake_new_bit ≠ g.food_pos then
      match snake_bits with
      | [] => none
      | tail :: rest =>
        some (⟨rest, g.food_pos⟩, updates ++ [(tail.1, tail.2, false)])
    else
      if cfg.width = 0 ∨ cfg.height = 0 then none
      else
        let food_pos : Cell := (r1 % cfg.width, r2 % cfg.height)
        some (⟨snake_bits, food_pos⟩, updates ++ [(food_pos.1, food_pos.2, true)])

/-- File name of the render file for the cell at column x, row y:
format ds_p{y}-{x}.bmp (lines 51 and 153). -/
def cellFileName (y x : Nat) : String :=
  "ds_p" ++ toString y ++ "-" ++ toString x ++ ".bmp"

/-- File name of the o-th decoy file: format ds_o{o}.bmp (line 46). -/
def decoyFileName (o : Nat) : String :=
  "ds_o" ++ toString o ++ ".bmp"

/-- The flush loop (lines 151-154): each update (x, y, val) is written to
ds_p{y}-{x}.bmp, red if val else black.  The Bool records which image. -/
def flushUpdates (ups : List Update) : List (String × Bool) :=
  ups.map (fun u => (cellFileName u.2.1 u.1, u.2.2))

/-- State carried across loop iterations: the game state plus the
pending-updates vector (which the code clears at the end of each pass). -/
structure LoopState where
  game : GameState
  updates : List Update
  deriving DecidableEq

/-- One full pass of the main loop (lines 120-164): tick, flush the pending
updates to files in order, clear the updates vector. -/
def loopBody (cfg : Config) (dir : SnakeDir) (r1 r2 : Nat) (ls : LoopState) :
    Option (LoopState × List (String × Bool)) :=
  match tick cfg dir r1 r2 ls.game ls.updates with
  | none => none
  | some (g, ups) => some (⟨g, []⟩, flushUpdates ups)

/-- Initial game state: snake_bits = vec![(1, 1)] (line 55),
food_pos = (2, 1) (line 69). -/
def initGame : GameState := ⟨[(1, 1)], (2, 1)⟩

/-- Initial loop state: updates = Vec::new() (line 67). -/
def initLoop : LoopState := ⟨initGame, []⟩

/-- The keys distinguished by TryFrom<rdev::Key> for SnakeDir: the four
arrows; `other` stands for every other key. -/
inductive RKey where
  | upArrow
  | downArrow
  | leftArrow
  | rightArrow
  | other
  deriving DecidableEq, Fintype

/-- TryFrom<rdev::Key> for SnakeDir (lines 81-92). -/
def snakeDirOfKey : RKey → Option SnakeDir
  | RKey.upArrow => some SnakeDir.up
  | RKey.downArrow => some SnakeDir.down
  | RKey.leftArrow => some SnakeDir.left
  | RKey.rightArrow => some SnakeDir.right
  | RKey.other => none

/-- The turn filter of the keyboard callback (lines 98-107): the candidate
read from the key, accepted only if on the axis perpendicular to the current
direction. -/
def newDirFor (current : SnakeDir) (k : RKey) : Option SnakeDir :=
  match current with
  | SnakeDir.up | SnakeDir.down =>
    match snakeDirOfKey k with
    | some SnakeDir.left => some SnakeDir.left
    | some SnakeDir.right => some SnakeDir.right
    | _ => none
  | SnakeDir.left | SnakeDir.right =>
    match snakeDirOfKey k with
    | some SnakeDir.up => some SnakeDir.up
    | some SnakeDir.down => some SnakeDir.down
    | _ => none

/-- The whole key-press handler (lines 95-112): the shared direction after
processing key `k` while the current direction is `current`. -/
def applyKey (current : SnakeDir) (k : RKey) : SnakeDir :=
  match newDirFor current k with
  | some d => d
  | none => current

/-- Axis of a direction: true for the vertical axis (Up/Down). -/
def SnakeDir.vertical : SnakeDir → Bool
  | SnakeDir.up | SnakeDir.down => true
  | SnakeDir.left | SnakeDir.right => false

/-- A directory entry as seen by clear_old_files.  `fileName = none` models
an OS file name that is not valid UTF-8 (OsStr::to_str returns None). -/
structure DirEntry where
  isFile : Bool
  fileName : Option String
  deriving DecidableEq

/-- Whether clear_old_files deletes the entry: a file whose (UTF-8) name
starts with ds_. -/
def isStaleRender (e : DirEntry) : Bool :=
  e.isFile && (match e.fileName with
    | some n => n.startsWith "ds_"
    | none => false)

/-- fn clear_old_files (lines 168-185), processing the directory listing in
order.  Returns the surviving entries; `none` models the panic of
`.to_str().unwrap()` on a file whose name is not valid UTF-8 (the unwrap is
reached only when `path.is_file()` already held). -/
def clear_old_files : List DirEntry → Option (List DirEntry)
  | [] => some []
  | e :: rest =>
    if e.isFile then
      match e.fileName with
      | none => none
      | some n =>
        if n.startsWith "ds_" then clear_old_files rest
        else Option.map (fun r => e :: r) (clear_old_files rest)
    else Option.map (fun r => e :: r) (clear_old_files rest)

/-- The decoy pre-render pass (lines 45-47): offset black files.  The Bool
records the image written (false = black). -/
def startupDecoyWrites (cfg : Config) : List (String × Bool) :=
  (List.range cfg.offset).map (fun o => (decoyFileName o, false))

/-- The grid pre-render pass (lines 49-53): a black file per cell, row by
row. -/
def startupCellWrites (cfg : Config) : List (String × Bool) :=
  (List.range cfg.height).flatMap
    (fun y => (List.range cfg.width).map (fun x => (cellFileName y x, false)))

/-- Startup (lines 34-53): clear the stale render files, then write the decoy
files and the blank grid files, all before the loop.  Returns the surviving
directory entries and the writes, in order. -/
def startup (cfg : Config) (dir : List DirEntry) :
    Option (List DirEntry × List (String × Bool)) :=
  match clear_old_files dir with
  | none => none
  | some remaining =>
    some (remaining, startupDecoyWrites cfg ++ startupCellWrites cfg)

/-- A 10 by 10 grid, as in the end-to-end scenario. -/
def cfg10 : Config := ⟨10, 10, 0⟩

/- ### Helper lemmas -/

/-- wrap lands in [0, max) whenever 0 < max < 2^31, for every val. -/
theorem wrap_range (val max : Int) (h0 : 0 < max) (h31 : max < 2 ^ 31) :
    0 ≤ wrap val max ∧ wrap val max < max := by
  unfold wrap
  split
  · have : toI32 (max - 1) = max - 1 := by
      unfold toI32
      omega
    omega
  · split
    · omega
    · omega

/-- toI32 is the identity on [0, 2^31). -/
theorem toI32_eq_self (n : Int) (h0 : 0 ≤ n) (h31 : n < 2 ^ 31) : toI32 n = n := by
  unfold toI32
  omega

/-- toU64 of a value in [0, 2^64) is its toNat. -/
theorem toU64_lt (n : Int) (m : Nat) (h0 : 0 ≤ n) (hm : n < (m : Int))
    (hs : (m : Int) ≤ 2 ^ 64) : toU64 n < m := by
  unfold toU64
  have h : n % 2 ^ 64 = n := Int.emod_eq_of_lt h0 (by omega)
  rw [h]
  omega

/-- Both coordinate pipelines of nextHeadFrom land below the dimension when
the dimension, read as an i32, is positive. -/
theorem toU64_wrap_lt (v : Int) (w : Nat) (h0 : 0 < w) (h31 : w < 2 ^ 31) :
    toU64 (wrap v (toI32 w)) < w := by
  have hw0 : (0 : Int) ≤ (w : Int) := by positivity
  have hw31 : (w : Int) < 2 ^ 31 := by exact_mod_cast h31
  rw [toI32_eq_self _ hw0 hw31]
  obtain ⟨hl, hr⟩ := wrap_range v w (by exact_mod_cast h0) hw31
  exact toU64_lt _ _ hl hr (by omega)

/-- Characterization of a successful tick: the head exists, and the tick
either shifted the body (new head appended, old tail dropped, tail-clear
update emitted) or grew it (new head on food, food relocated, food update
emitted). -/
theorem tick_some_elim (cfg : Config) (dir : SnakeDir) (r1 r2 : Nat)
    (g : GameState) (u0 : List Update) (g' : GameState) (ups : List Update)
    (h : tick cfg dir r1 r2 g u0 = some (g', ups)) :
    ∃ head, g.snake_bits.getLast? = some head ∧
      ((nextHeadFrom cfg dir head ≠ g.food_pos ∧
        ∃ t rest, g.snake_bits = t :: rest ∧
          g' = ⟨rest ++ [nextHeadFrom cfg dir head], g.food_pos⟩ ∧
          ups = u0 ++ [((nextHeadFrom cfg dir head).1,
                        (nextHeadFrom cfg dir head).2, true),
                       (t.1, t.2, false)]) ∨
       (nextHeadFrom cfg dir head = g.food_pos ∧
        cfg.width ≠ 0 ∧ cfg.height ≠ 0 ∧
        g' = ⟨g.snake_bits ++ [nextHeadFrom cfg dir head],
              (r1 % cfg.width, r2 % cfg.height)⟩ ∧
        ups = u0 ++ [((nextHeadFrom cfg dir head).1,
                      (nextHeadFrom cfg dir head).2, true),
                     (r1 % cfg.width, r2 % cfg.height, true)])) := by
  unfold tick at h
  split at h
  · exact absurd h (by simp)
  next head hL =>
    refine ⟨head, hL, ?_⟩
    by_cases hfood : nextHeadFrom cfg dir head = g.food_pos
    · right
      rw [if_neg (by simp [hfood])] at h
      split at h
      · exact absurd h (by simp)
      next hwh =>
        push_neg at hwh
        simp only [Option.some.injEq, Prod.mk.injEq] at h
        obtain ⟨h1, h2⟩ := h
        exact ⟨hfood, hwh.1, hwh.2, h1.symm ▸ rfl, by rw [← h2]; simp⟩
    · left
      rw [if_pos hfood] at h
      cases hgb : g.snake_bits with
      | nil => rw [hgb] at hL; simp at hL
      | cons a l =>
        rw [hgb] at h
        simp only [List.cons_append] at h
        simp only [Option.some.injEq, Prod.mk.injEq] at h
        obtain ⟨h1, h2⟩ := h
        exact ⟨hfood, a, l, rfl, h1.symm ▸ rfl, by rw [← h2]; simp⟩

/-- A tick from a non-empty body with non-degenerate dimensions never
panics. -/
theorem tick_isSome (cfg : Config) (dir : SnakeDir) (r1 r2 : Nat)
    (g : GameState) (u0 : List Update) (hne : g.snake_bits ≠ [])
    (hw : cfg.width ≠ 0) (hh : cfg.height ≠ 0) :
    (tick cfg dir r1 r2 g u0).isSome = true := by
  unfold tick
  cases hgb : g.snake_bits with
  | nil => exact absurd hgb hne
  | cons a l =>
    rw [List.getLast?_eq_getLast (a :: l) (by simp)]
    split
    next heq2 => simp at heq2
    next head2 heq2 =>
      split
      next hcond => exact absurd hcond (by simp [hw, hh])
      next hcond =>
        by_cases hfood : nextHeadFrom cfg dir head2 = g.food_pos <;> simp [hfood]

/-- Computation rule for a shift tick (new head misses the food). -/
theorem tick_shift (cfg : Config) (dir : SnakeDir) (r1 r2 : Nat) (t : Cell)
    (rest : List Cell) (food : Cell) (u0 : List Update) (head : Cell)
    (hL : (t :: rest).getLast? = some head)
    (hne : nextHeadFrom cfg dir head ≠ food) :
    tick cfg dir r1 r2 ⟨t :: rest, food⟩ u0 =
      some (⟨rest ++ [nextHeadFrom cfg dir head], food⟩,
        u0 ++ [((nextHeadFrom cfg dir head).1,
                (nextHeadFrom cfg dir head).2, true),
               (t.1, t.2, false)]) := by
  simp only [tick, hL, List.cons_append]
  rw [if_pos hne]
  simp

/-- Computation rule for a growth tick (new head hits the food). -/
theorem tick_grow (cfg : Config) (dir : SnakeDir) (r1 r2 : Nat)
    (bits : List Cell) (food : Cell) (u0 : List Update) (head : Cell)
    (hL : bits.getLast? = some head)
    (hfood : nextHeadFrom cfg dir head = food)
    (hw : cfg.width ≠ 0) (hh : cfg.height ≠ 0) :
    tick cfg dir r1 r2 ⟨bits, food⟩ u0 =
      some (⟨bits ++ [nextHeadFrom cfg dir head],
             (r1 % cfg.width, r2 % cfg.height)⟩,
        u0 ++ [((nextHeadFrom cfg dir head).1,
                (nextHeadFrom cfg dir head).2, true),
               (r1 % cfg.width, r2 % cfg.height, true)]) := by
  simp only [tick, hL]
  rw [if_neg (by simp [hfood])]
  rw [if_neg (by simp [hw, hh])]
  simp

/- ### Claim theorems -/

/-- C1: on a tick whose newly computed head equals the food cell, the body
length grows by exactly 1 and no occupied=false update is emitted; on any
other tick the length is unchanged (one cell appended, the oldest removed)
and exactly one occupied=false update is emitted, for the old tail cell. -/
theorem growth_invariant :
    ∀ (cfg : Config) (dir : SnakeDir) (r1 r2 : Nat) (g g' : GameState)
      (ups : List Update) (head : Cell),
      g.snake_bits.getLast? = some head →
      tick cfg dir r1 r2 g [] = some (g', ups) →
      (nextHeadFrom cfg dir head = g.food_pos →
        g'.snake_bits.length = g.snake_bits.length + 1 ∧
        ups.countP (fun u => !u.2.2) = 0) ∧
      (nextHeadFrom cfg dir head ≠ g.food_pos →
        g'.snake_bits.length = g.snake_bits.length ∧
        ups.countP (fun u => !u.2.2) = 1 ∧
        ∃ t rest, g.snake_bits = t :: rest ∧
          g'.snake_bits = rest ++ [nextHeadFrom cfg dir head] ∧
          ups = [((nextHeadFrom cfg dir head).1,
                  (nextHeadFrom cfg dir head).2, true),
                 (t.1, t.2, false)]) := by
  intro cfg dir r1 r2 g g' ups head hL h
  obtain ⟨head', hL', hcase⟩ := tick_some_elim cfg dir r1 r2 g [] g' ups h
  have he : head = head' := by
    injection hL.symm.trans hL'
  subst he
  cases hcase with
  | inl hshift =>
    obtain ⟨hne, t, rest, hg, hg', hups⟩ := hshift
    subst hg' hups
    constructor
    · intro hfood
      exact absurd hfood hne
    · intro _
      refine ⟨by simp [hg], by simp [List.countP_cons], t, rest, hg, by simp, by simp⟩
  | inr hgrow =>
    obtain ⟨hfood, hw, hh, hg', hups⟩ := hgrow
    subst hg' hups
    constructor
    · intro _
      exact ⟨by simp, by simp [List.countP_cons]⟩
    · intro hne
      exact absurd hfood hne

/-- C1 witness: a concrete non-food tick on the 10 by 10 grid has exactly one
occupied=false update. -/
theorem growth_invariant_witness :
    ([((3 : Nat), (1 : Nat), true), ((1 : Nat), (1 : Nat), false)] : List Update).countP
      (fun u => !u.2.2) = 1 :=
  ((growth_invariant cfg10 SnakeDir.right 0 0 ⟨[(1, 1), (2, 1)], (5, 5)⟩
      ⟨[(2, 1), (3, 1)], (5, 5)⟩ [(3, 1, true), (1, 1, false)] (2, 1)
      rfl (by decide)).2 (by decide)).2.1

/-- C2: wrap(v, d) lies in [0, d) for every i32 coordinate v and i32
dimension d > 0; wrap(-1, d) = d - 1; wrap(d, d) = 0; wrap(v, d) = v on
[0, d).  On a grid of width 5 a head at column 4 moving Right wraps to
column 0, for every row and every height. -/
theorem wrap_spec :
    (∀ v d : Int, 0 < d → d < 2 ^ 31 →
      (0 ≤ wrap v d ∧ wrap v d < d) ∧
      wrap (-1) d = d - 1 ∧
      wrap d d = 0 ∧
      (0 ≤ v → v < d → wrap v d = v)) ∧
    (∀ hgt o y : Nat,
      (nextHeadFrom ⟨5, hgt, o⟩ SnakeDir.right (4, y)).1 = 0) := by
  constructor
  · intro v d hd hd31
    refine ⟨wrap_range v d hd hd31, ?_, ?_, ?_⟩
    · unfold wrap
      rw [if_pos (by omega)]
      exact toI32_eq_self _ (by omega) (by omega)
    · unfold wrap
      rw [if_neg (by omega), if_pos (by omega)]
    · intro h0 hvd
      unfold wrap
      rw [if_neg (by omega), if_neg (by omega)]
  · intro hgt o y
    simp only [nextHeadFrom]
    decide

/-- C2 witness: wrap at v = 7, d = 5 lies in [0, 5). -/
theorem wrap_spec_witness : 0 ≤ wrap 7 5 ∧ wrap 7 5 < 5 :=
  (wrap_spec.1 7 5 (by decide) (by decide)).1

/-- C3: an arrow key is accepted (the shared direction becomes the candidate)
iff the candidate's axis differs from the current direction's axis; same-axis
presses and non-arrow keys leave the direction unchanged. -/
theorem turn_filter_spec :
    ∀ (d : SnakeDir) (k : RKey),
      (∀ c, snakeDirOfKey k = some c →
        (c.vertical ≠ d.vertical → applyKey d k = c) ∧
        (c.vertical = d.vertical → applyKey d k = d)) ∧
      (snakeDirOfKey k = none → applyKey d k = d) := by decide

/-- C3 witness: an Up press while moving Right is accepted. -/
theorem turn_filter_witness : applyKey SnakeDir.right RKey.upArrow = SnakeDir.up :=
  ((turn_filter_spec SnakeDir.right RKey.upArrow).1 SnakeDir.up rfl).1 (by decide)

/-- C6: the body starts with one cell, every successful tick keeps the body
non-empty, and a non-empty body always has a readable head (last element). -/
theorem snake_length_invariant :
    initGame.snake_bits.length = 1 ∧
    (∀ (cfg : Config) (dir : SnakeDir) (r1 r2 : Nat) (g : GameState)
       (u0 : List Update) (g' : GameState) (ups : List Update),
       tick cfg dir r1 r2 g u0 = some (g', ups) →
       1 ≤ g'.snake_bits.length) ∧
    (∀ g : GameState, 1 ≤ g.snake_bits.length →
       g.snake_bits.getLast?.isSome = true) := by
  refine ⟨rfl, ?_, ?_⟩
  · intro cfg dir r1 r2 g u0 g' ups h
    obtain ⟨head, hL, hcase⟩ := tick_some_elim cfg dir r1 r2 g u0 g' ups h
    cases hcase with
    | inl hshift =>
      obtain ⟨_, t, rest, hg, hg', _⟩ := hshift
      subst hg'
      simp
    | inr hgrow =>
      obtain ⟨_, _, _, hg', _⟩ := hgrow
      subst hg'
      simp
  · intro g hg
    cases hgb : g.snake_bits with
    | nil => rw [hgb] at hg; simp at hg
    | cons a l =>
      rw [List.getLast?_eq_getLast (a :: l) (by simp)]
      rfl

/-- C6 witness: a concrete tick from the initial state keeps length ≥ 1. -/
theorem snake_length_witness :
    1 ≤ (⟨[(1, 1), (2, 1)], (0, 0)⟩ : GameState).snake_bits.length :=
  snake_length_invariant.2.1 cfg10 SnakeDir.right 0 0 initGame []
    ⟨[(1, 1), (2, 1)], (0, 0)⟩ [(2, 1, true), (0, 0, true)] (by decide)

/-- C4: every successful tick started with an empty pending-updates buffer
emits exactly 2 updates: first the new head cell occupied=true, then either
the old tail cell occupied=false or the relocated food cell occupied=true;
the loop flushes exactly these updates in generation order and clears the
buffer afterwards. -/
theorem update_minimality :
    ∀ (cfg : Config) (dir : SnakeDir) (r1 r2 : Nat) (g g' : GameState)
      (ups : List Update) (head : Cell),
      g.snake_bits.getLast? = some head →
      tick cfg dir r1 r2 g [] = some (g', ups) →
      ups.length = 2 ∧
      ups.head? = some ((nextHeadFrom cfg dir head).1,
                        (nextHeadFrom cfg dir head).2, true) ∧
      ((∃ t rest, g.snake_bits = t :: rest ∧
          ups.getLast? = some (t.1, t.2, false)) ∨
        ups.getLast? = some (g'.food_pos.1, g'.food_pos.2, true)) ∧
      (∀ (ls' : LoopState) (writes : List (String × Bool)),
        loopBody cfg dir r1 r2 ⟨g, []⟩ = some (ls', writes) →
        writes = flushUpdates ups ∧ ls'.updates = []) := by
  intro cfg dir r1 r2 g g' ups head hL h
  have hloop : ∀ (ls' : LoopState) (writes : List (String × Bool)),
      loopBody cfg dir r1 r2 ⟨g, []⟩ = some (ls', writes) →
      writes = flushUpdates ups ∧ ls'.updates = [] := by
    intro ls' writes hlb
    simp only [loopBody] at hlb
    rw [h] at hlb
    simp only [Option.some.injEq, Prod.mk.injEq] at hlb
    obtain ⟨h1, h2⟩ := hlb
    exact ⟨h2.symm, by rw [← h1]⟩
  obtain ⟨head', hL', hcase⟩ := tick_some_elim cfg dir r1 r2 g [] g' ups h
  have he : head = head' := by
    injection hL.symm.trans hL'
  subst he
  cases hcase with
  | inl hshift =>
    obtain ⟨hne, t, rest, hg, hg', hups⟩ := hshift
    subst hups
    exact ⟨by simp, by simp, Or.inl ⟨t, rest, hg, by simp⟩, hloop⟩
  | inr hgrow =>
    obtain ⟨hfood, hw, hh, hg', hups⟩ := hgrow
    subst hg' hups
    exact ⟨by simp, by simp, Or.inr (by simp), hloop⟩

/-- C4 witness: the concrete first tick of the game emits exactly 2
updates. -/
theorem update_minimality_witness :
    ([((2 : Nat), (1 : Nat), true), ((0 : Nat), (0 : Nat), true)] : List Update).length = 2 :=
  (update_minimality cfg10 SnakeDir.right 0 0 initGame ⟨[(1, 1), (2, 1)], (0, 0)⟩
    [(2, 1, true), (0, 0, true)] (1, 1) rfl (by decide)).1

/-- C5 counterexample: if the food relocated by tick 1 happens to land on
(3,1) (random draws 3 and 1), tick 2 grows the body to length 3 and emits a
food update instead of removing tail (1,1) and emitting clear (1,1); the
claimed tick-2 outcome does not hold for every relocation. -/
theorem scenario_counterexample :
    tick cfg10 SnakeDir.right 3 1 initGame [] =
      some (⟨[(1, 1), (2, 1)], (3, 1)⟩, [(2, 1, true), (3, 1, true)]) ∧
    tick cfg10 SnakeDir.right 0 0 ⟨[(1, 1), (2, 1)], (3, 1)⟩ [] =
      some (⟨[(1, 1), (2, 1), (3, 1)], (0, 0)⟩, [(3, 1, true), (0, 0, true)]) ∧
    ¬ ((⟨[(1, 1), (2, 1), (3, 1)], (0, 0)⟩ : GameState).snake_bits.length = 2 ∧
       ([((3 : Nat), (1 : Nat), true), ((0 : Nat), (0 : Nat), true)] : List Update) =
         [(3, 1, true), (1, 1, false)]) := by
  decide

/-- C5 (amended: provided the food relocated on tick 1 is not (3,1)): on the
10 by 10 grid from body [(1,1)], direction Right, food (2,1): tick 1 moves the
head to (2,1) = food, grows the body to [(1,1),(2,1)], relocates the food and
emits occupy (2,1) then occupy (new food); tick 2 moves the head to (3,1),
removes tail (1,1) and emits occupy (3,1) then clear (1,1). -/
theorem scenario_amended :
    ∀ r1 r2 r3 r4 : Nat,
      ((r1 % 10 : Nat), (r2 % 10 : Nat)) ≠ ((3 : Nat), (1 : Nat)) →
      tick cfg10 SnakeDir.right r1 r2 initGame [] =
        some (⟨[(1, 1), (2, 1)], (r1 % 10, r2 % 10)⟩,
          [(2, 1, true), (r1 % 10, r2 % 10, true)]) ∧
      tick cfg10 SnakeDir.right r3 r4 ⟨[(1, 1), (2, 1)], (r1 % 10, r2 % 10)⟩ [] =
        some (⟨[(2, 1), (3, 1)], (r1 % 10, r2 % 10)⟩,
          [(3, 1, true), (1, 1, false)]) := by
  intro r1 r2 r3 r4 hfood
  have h1 : nextHeadFrom cfg10 SnakeDir.right (1, 1) = (2, 1) := by decide
  have h2 : nextHeadFrom cfg10 SnakeDir.right (2, 1) = (3, 1) := by decide
  constructor
  · have := tick_grow cfg10 SnakeDir.right r1 r2 [(1, 1)] (2, 1) [] (1, 1)
      rfl h1 (by decide) (by decide)
    rw [h1] at this
    simpa [initGame] using this
  · have hne : nextHeadFrom cfg10 SnakeDir.right (2, 1) ≠ (r1 % 10, r2 % 10) := by
      rw [h2]
      exact Ne.symm hfood
    have := tick_shift cfg10 SnakeDir.right r3 r4 (1, 1) [(2, 1)]
      (r1 % 10, r2 % 10) [] (2, 1) rfl hne
    rw [h2] at this
    simpa using this

/-- C5 witness: the amended scenario at random draws 5, 5 (food relocates to
(5,5)). -/
theorem scenario_amended_witness :
    tick cfg10 SnakeDir.right 5 5 initGame [] =
      some (⟨[(1, 1), (2, 1)], (5 % 10, 5 % 10)⟩,
        [(2, 1, true), (5 % 10, 5 % 10, true)]) ∧
    tick cfg10 SnakeDir.right 0 0 ⟨[(1, 1), (2, 1)], (5 % 10, 5 % 10)⟩ [] =
      some (⟨[(2, 1), (3, 1)], (5 % 10, 5 % 10)⟩,
        [(3, 1, true), (1, 1, false)]) :=
  scenario_amended 5 5 0 0 (by decide)

/-- C7: when the new head equals the food, the tick sets the food to
(r1 mod width, r2 mod height) — inside the grid, with no reference to the
snake body — and records a food update; otherwise the food is unchanged.
Every grid cell, occupied by the body or not, is a possible relocation
target. -/
theorem food_relocation :
    ∀ (cfg : Config) (dir : SnakeDir) (r1 r2 : Nat) (g g' : GameState)
      (ups : List Update) (head : Cell),
      g.snake_bits.getLast? = some head →
      tick cfg dir r1 r2 g [] = some (g', ups) →
      (nextHeadFrom cfg dir head = g.food_pos →
        g'.food_pos = (r1 % cfg.width, r2 % cfg.height) ∧
        g'.food_pos.1 < cfg.width ∧ g'.food_pos.2 < cfg.height ∧
        ups.getLast? = some (g'.food_pos.1, g'.food_pos.2, true)) ∧
      (nextHeadFrom cfg dir head ≠ g.food_pos → g'.food_pos = g.food_pos) ∧
      (∀ c : Cell, c.1 < cfg.width → c.2 < cfg.height →
        ∃ s1 s2 : Nat, ((s1 % cfg.width : Nat), (s2 % cfg.height : Nat)) = c) := by
  intro cfg dir r1 r2 g g' ups head hL h
  obtain ⟨head', hL', hcase⟩ := tick_some_elim cfg dir r1 r2 g [] g' ups h
  have he : head = head' := by
    injection hL.symm.trans hL'
  subst he
  refine ⟨?_, ?_, ?_⟩
  · intro hfood
    cases hcase with
    | inl hshift => exact absurd hfood hshift.1
    | inr hgrow =>
      obtain ⟨_, hw, hh, hg', hups⟩ := hgrow
      subst hg' hups
      exact ⟨rfl, Nat.mod_lt _ (Nat.pos_of_ne_zero hw),
        Nat.mod_lt _ (Nat.pos_of_ne_zero hh), by simp⟩
  · intro hne
    cases hcase with
    | inl hshift =>
      obtain ⟨_, t, rest, hg, hg', _⟩ := hshift
      subst hg'
      rfl
    | inr hgrow => exact absurd hgrow.1 hne
  · intro c hc1 hc2
    exact ⟨c.1, c.2, by rw [Nat.mod_eq_of_lt hc1, Nat.mod_eq_of_lt hc2]⟩

/-- C7 witness: the concrete first tick of the game relocates the food to
(0 mod 10, 0 mod 10). -/
theorem food_relocation_witness :
    (⟨[(1, 1), (2, 1)], ((0 : Nat), (0 : Nat))⟩ : GameState).food_pos =
      (0 % 10, 0 % 10) :=
  ((food_relocation cfg10 SnakeDir.right 0 0 initGame
      ⟨[(1, 1), (2, 1)], (0, 0)⟩ [(2, 1, true), (0, 0, true)] (1, 1)
      rfl (by decide)).1 (by decide)).1

/-- On a directory whose file entries all have valid UTF-8 names,
clear_old_files succeeds and deletes exactly the files whose names start
with ds_. -/
theorem clear_old_files_ok (l : List DirEntry)
    (h : ∀ e ∈ l, e.isFile → e.fileName ≠ none) :
    clear_old_files l = some (l.filter (fun e => !isStaleRender e)) := by
  induction l with
  | nil => rfl
  | cons e rest ih =>
    have hrest : ∀ x ∈ rest, x.isFile → x.fileName ≠ none :=
      fun x hx => h x (List.mem_cons_of_mem _ hx)
    specialize ih hrest
    by_cases hf : e.isFile
    · cases hfn : e.fileName with
      | none => exact absurd hfn (h e (List.mem_cons_self _ _) hf)
      | some n =>
        by_cases hds : n.startsWith "ds_"
        · simp [clear_old_files, hf, hfn, hds, ih, isStaleRender]
        · simp [clear_old_files, hf, hfn, hds, ih, isStaleRender]
    · simp [clear_old_files, hf, ih, isStaleRender]

/-- C8: at startup with width=3, height=2, offset=1 the program first deletes
every file entry whose name begins with ds_, then writes exactly 1 decoy file
ds_o0.bmp and 3 times 2 = 6 blank (black) grid files named ds_p{row}-{col}.bmp,
all before the game loop. -/
theorem startup_writes_spec :
    ∀ dir : List DirEntry, (∀ e ∈ dir, e.isFile → e.fileName ≠ none) →
      startup ⟨3, 2, 1⟩ dir =
        some (dir.filter (fun e => !isStaleRender e),
          [("ds_o0.bmp", false),
           ("ds_p0-0.bmp", false), ("ds_p0-1.bmp", false), ("ds_p0-2.bmp", false),
           ("ds_p1-0.bmp", false), ("ds_p1-1.bmp", false), ("ds_p1-2.bmp", false)]) ∧
      (startupCellWrites ⟨3, 2, 1⟩).length = 3 * 2 ∧
      (startupDecoyWrites ⟨3, 2, 1⟩).length = 1 := by
  intro dir hdir
  refine ⟨?_, by decide, by decide⟩
  unfold startup
  rw [clear_old_files_ok dir hdir]
  rfl

/-- C8 witness: startup on a directory holding one stale render file and the
snake directory itself. -/
theorem startup_writes_witness :
    startup ⟨3, 2, 1⟩ [⟨true, some "ds_old.bmp"⟩, ⟨false, some "snake"⟩] =
      some ([⟨true, some "ds_old.bmp"⟩, ⟨false, some "snake"⟩].filter
          (fun e => !isStaleRender e),
        [("ds_o0.bmp", false),
         ("ds_p0-0.bmp", false), ("ds_p0-1.bmp", false), ("ds_p0-2.bmp", false),
         ("ds_p1-0.bmp", false), ("ds_p1-1.bmp", false), ("ds_p1-2.bmp", false)]) ∧
    (startupCellWrites ⟨3, 2, 1⟩).length = 3 * 2 ∧
    (startupDecoyWrites ⟨3, 2, 1⟩).length = 1 :=
  startup_writes_spec [⟨true, some "ds_old.bmp"⟩, ⟨false, some "snake"⟩] (by decide)

/-- C9: clear_old_files deletes exactly the file entries whose names start
with ds_ and returns Ok whenever every file entry's name is valid UTF-8, and
it panics (models as none) on a directory holding a file whose name is not
valid UTF-8. -/
theorem clear_old_files_spec :
    (∀ l : List DirEntry, (∀ e ∈ l, e.isFile → e.fileName ≠ none) →
      clear_old_files l = some (l.filter (fun e => !isStaleRender e))) ∧
    clear_old_files [⟨true, none⟩] = none :=
  ⟨clear_old_files_ok, rfl⟩

/-- C9 witness: a concrete directory with a stale render file, a directory
entry, and an unrelated file. -/
theorem clear_old_files_witness :
    clear_old_files
        [⟨true, some "ds_p0-0.bmp"⟩, ⟨false, none⟩, ⟨true, some "other.txt"⟩] =
      some ([⟨true, some "ds_p0-0.bmp"⟩, ⟨false, none⟩,
             ⟨true, some "other.txt"⟩].filter (fun e => !isStaleRender e)) :=
  clear_old_files_spec.1
    [⟨true, some "ds_p0-0.bmp"⟩, ⟨false, none⟩, ⟨true, some "other.txt"⟩]
    (by decide)

/-- A configuration whose u32 width does not fit in an i32: 2^31 + 5. -/
def cfgBig : Config := ⟨2 ^ 31 + 5, 2, 0⟩

/-- C10 counterexample: with width = 2^31 + 5 > 0 and height = 2 > 0, the
reachable tick sequence Up, Left from the initial state appends the
head cell (2^64 - 2^31 + 4, 0), which is far outside [0, width): the
u32-to-i32 cast makes the width negative, so wrap returns a negative value
whose usize cast is huge.  The claimed precondition width > 0, height > 0 is
not sufficient. -/
theorem head_range_counterexample :
    0 < cfgBig.width ∧ 0 < cfgBig.height ∧
    tick cfgBig SnakeDir.up 0 0 initGame [] =
      some (⟨[(0, 0)], (2, 1)⟩, [(0, 0, true), (1, 1, false)]) ∧
    tick cfgBig SnakeDir.left 0 0 ⟨[(0, 0)], (2, 1)⟩ [] =
      some (⟨[(2 ^ 64 - 2 ^ 31 + 4, 0)], (2, 1)⟩,
        [(2 ^ 64 - 2 ^ 31 + 4, 0, true), (0, 0, false)]) ∧
    ¬ (2 ^ 64 - 2 ^ 31 + 4 < cfgBig.width) := by
  decide

/-- C10 (amended: width and height must also fit in an i32, i.e. be below
2^31): under 0 < width < 2^31 and 0 < height < 2^31, a tick from a non-empty
body never panics (no modulo by zero), the appended head cell lies in
[0, width) by [0, height) (both wrap results in range), and the food is
either unchanged or relocated inside the grid. -/
theorem head_range_amended :
    ∀ (cfg : Config) (dir : SnakeDir) (r1 r2 : Nat) (g : GameState)
      (u0 : List Update),
      0 < cfg.width → cfg.width < 2 ^ 31 →
      0 < cfg.height → cfg.height < 2 ^ 31 →
      g.snake_bits ≠ [] →
      (tick cfg dir r1 r2 g u0).isSome = true ∧
      (∀ (g' : GameState) (ups : List Update) (head : Cell),
        tick cfg dir r1 r2 g u0 = some (g', ups) →
        g.snake_bits.getLast? = some head →
        (nextHeadFrom cfg dir head).1 < cfg.width ∧
        (nextHeadFrom cfg dir head).2 < cfg.height ∧
        (g'.food_pos = g.food_pos ∨
          (g'.food_pos = (r1 % cfg.width, r2 % cfg.height) ∧
           g'.food_pos.1 < cfg.width ∧ g'.food_pos.2 < cfg.height))) := by
  intro cfg dir r1 r2 g u0 hw hw31 hh hh31 hne
  refine ⟨tick_isSome cfg dir r1 r2 g u0 hne (by omega) (by omega), ?_⟩
  intro g' ups head h hL
  have hx : (nextHeadFrom cfg dir head).1 < cfg.width := by
    cases dir <;> (simp only [nextHeadFrom]; exact toU64_wrap_lt _ _ hw hw31)
  have hy : (nextHeadFrom cfg dir head).2 < cfg.height := by
    cases dir <;> (simp only [nextHeadFrom]; exact toU64_wrap_lt _ _ hh hh31)
  refine ⟨hx, hy, ?_⟩
  obtain ⟨head', hL', hcase⟩ := tick_some_elim cfg dir r1 r2 g u0 g' ups h
  cases hcase with
  | inl hshift =>
    obtain ⟨_, t, rest, _, hg', _⟩ := hshift
    subst hg'
    exact Or.inl rfl
  | inr hgrow =>
    obtain ⟨_, hw0, hh0, hg', _⟩ := hgrow
    subst hg'
    exact Or.inr ⟨rfl, Nat.mod_lt _ hw, Nat.mod_lt _ hh⟩

/-- C10 witness: the first tick of the game on the 10 by 10 grid never
panics. -/
theorem head_range_witness :
    (tick cfg10 SnakeDir.right 0 0 initGame []).isSome = true :=
  (head_range_amended cfg10 SnakeDir.right 0 0 initGame []
    (by decide) (by decide) (by decide) (by decide) (by decide)).1
